import Mathlib

/-!
# vmath: vectors and quaternions

A shallow embedding of `vMath.go` (package `vmath`): the fixed-size vector types
`Vec2`, `Vec3`, `Vec4`, the vector primitives and the quaternion operations layered
on `Vec4` in `(x, y, z, w)` layout.

The scalar type is a parameter `α` (an ordered field).  The theorems read the
components as exact reals, `α := ℝ`; the definitions stay executable and can be
evaluated over `ℚ`.  The conversions `float32(·)` and `float64(·)` are the identity
under this reading, and `math.Sqrt` is a parameter `sqrt : α → α` of the functions
that call it, instantiated with `Real.sqrt` in the theorems.

Two layers are given.

* Value level: each Go function as a function from the contents of its source
  operands to the value it assigns to `*r`.
* Memory level (namespace `Heap`): each Go function as a transformer of a flat memory
  of scalars, with pointers as addresses, so that operands may alias.

`F32` gives the binary32 product and difference, for the one place where `float32`
overflow decides what `CrossV3` leaves in its destination.
-/

namespace VMath

/-! ## Data model -/

/-- Go `type Vec2 [2]float32`. -/
@[ext] structure Vec2 (α : Type) where
  c0 : α
  c1 : α
  deriving DecidableEq, Repr

/-- Go `type Vec3 [3]float32`. -/
@[ext] structure Vec3 (α : Type) where
  c0 : α
  c1 : α
  c2 : α
  deriving DecidableEq, Repr

/-- Go `type Vec4 [4]float32`; as a quaternion, `(c0, c1, c2)` is the vector part and
`c3` the scalar part. -/
@[ext] structure Vec4 (α : Type) where
  c0 : α
  c1 : α
  c2 : α
  c3 : α
  deriving DecidableEq, Repr

/-! ## Value level -/

section Cross

variable {α : Type} [Mul α] [Sub α]

/-- `CrossV3`: the value assigned to `*r`.  It needs only the product and the
difference of the scalar type, so it applies to exact scalars and to `F32` alike. -/
def CrossV3 (a b : Vec3 α) : Vec3 α :=
  { c0 := a.c1 * b.c2 - a.c2 * b.c1
    c1 := a.c2 * b.c0 - a.c0 * b.c2
    c2 := a.c0 * b.c1 - a.c1 * b.c0 }

end Cross

section Value

variable {α : Type} [LinearOrderedField α]

/-- `DotV2`. -/
def DotV2 (a b : Vec2 α) : α :=
  a.c0 * b.c0 + a.c1 * b.c1

/-- `DotV3`. -/
def DotV3 (a b : Vec3 α) : α :=
  a.c0 * b.c0 + a.c1 * b.c1 + a.c2 * b.c2

/-- `DotV4`. -/
def DotV4 (a b : Vec4 α) : α :=
  a.c0 * b.c0 + a.c1 * b.c1 + a.c2 * b.c2 + a.c3 * b.c3

/-- `ScaleV2`. -/
def ScaleV2 (v : Vec2 α) (s : α) : Vec2 α :=
  { c0 := v.c0 * s
    c1 := v.c1 * s }

/-- `ScaleV3`. -/
def ScaleV3 (v : Vec3 α) (s : α) : Vec3 α :=
  { c0 := v.c0 * s
    c1 := v.c1 * s
    c2 := v.c2 * s }

/-- `ScaleV4`. -/
def ScaleV4 (v : Vec4 α) (s : α) : Vec4 α :=
  { c0 := v.c0 * s
    c1 := v.c1 * s
    c2 := v.c2 * s
    c3 := v.c3 * s }

/-- `NormalizeV2`: scale by `1 / sqrt (DotV2 v v)`. -/
def NormalizeV2 (sqrt : α → α) (v : Vec2 α) : Vec2 α :=
  ScaleV2 v (1 / sqrt (DotV2 v v))

/-- `NormalizeV3`: scale by `1 / sqrt (DotV3 v v)`. -/
def NormalizeV3 (sqrt : α → α) (v : Vec3 α) : Vec3 α :=
  ScaleV3 v (1 / sqrt (DotV3 v v))

/-- `NormalizeV4`: scale by `1 / sqrt (DotV4 v v)`. -/
def NormalizeV4 (sqrt : α → α) (v : Vec4 α) : Vec4 α :=
  ScaleV4 v (1 / sqrt (DotV4 v v))

/-- `AddV2`. -/
def AddV2 (a b : Vec2 α) : Vec2 α :=
  { c0 := a.c0 + b.c0
    c1 := a.c1 + b.c1 }

/-- `AddV3`. -/
def AddV3 (a b : Vec3 α) : Vec3 α :=
  { c0 := a.c0 + b.c0
    c1 := a.c1 + b.c1
    c2 := a.c2 + b.c2 }

/-- `AddV4`. -/
def AddV4 (a b : Vec4 α) : Vec4 α :=
  { c0 := a.c0 + b.c0
    c1 := a.c1 + b.c1
    c2 := a.c2 + b.c2
    c3 := a.c3 + b.c3 }

/-- `SubtractV3`. -/
def SubtractV3 (a b : Vec3 α) : Vec3 α :=
  { c0 := a.c0 - b.c0
    c1 := a.c1 - b.c1
    c2 := a.c2 - b.c2 }

/-- `LerpV3`: linear interpolation of two 3D vectors. -/
def LerpV3 (a b : Vec3 α) (t : α) : Vec3 α :=
  let x := ScaleV3 a (1 - t)
  let y := ScaleV3 b t
  AddV3 x y

/-- `MulQt`: multiply two quaternions. -/
def MulQt (a b : Vec4 α) : Vec4 α :=
  { c0 := a.c0 * b.c3 + a.c3 * b.c0 + a.c1 * b.c2 - a.c2 * b.c1
    c1 := a.c1 * b.c3 + a.c3 * b.c1 + a.c2 * b.c0 - a.c0 * b.c2
    c2 := a.c2 * b.c3 + a.c3 * b.c2 + a.c0 * b.c1 - a.c1 * b.c0
    c3 := a.c3 * b.c3 - a.c0 * b.c0 - a.c1 * b.c1 - a.c2 * b.c2 }

/-- `ConjugateQt`. -/
def ConjugateQt (q : Vec4 α) : Vec4 α :=
  { c0 := -q.c0
    c1 := -q.c1
    c2 := -q.c2
    c3 := q.c3 }

/-- The view `(*Vec3)(unsafe.Pointer(q))` of a quaternion: its first three components. -/
def qVecOf (q : Vec4 α) : Vec3 α :=
  { c0 := q.c0
    c1 := q.c1
    c2 := q.c2 }

/-- `RotateQt`, statement by statement. -/
def RotateQt (v : Vec3 α) (q : Vec4 α) : Vec3 α :=
  let qVec := qVecOf q
  let dot := -DotV3 qVec v
  let conj := ScaleV3 qVec (-1)
  let intVec := AddV3 (ScaleV3 v q.c3) (CrossV3 qVec v)
  let r := AddV3 (ScaleV3 intVec q.c3) (ScaleV3 conj dot)
  AddV3 r (CrossV3 intVec conj)

/-- `NlerpQt`: `p` is `a` scaled by `-1` when `DotV4 a b < 0` and `a` otherwise. -/
def NlerpQt (sqrt : α → α) (a b : Vec4 α) (t : α) : Vec4 α :=
  let p := if DotV4 a b < 0 then ScaleV4 a (-1) else a
  let x := ScaleV4 p (1 - t)
  let y := ScaleV4 b t
  NormalizeV4 sqrt (AddV4 x y)

/-- The vector that `NlerpQt` hands to `NormalizeV4`, that is `AddV4(r, &x, &y)`. -/
def nlerpBlend (a b : Vec4 α) (t : α) : Vec4 α :=
  let p := if DotV4 a b < 0 then ScaleV4 a (-1) else a
  let x := ScaleV4 p (1 - t)
  let y := ScaleV4 b t
  AddV4 x y

/-! ## Reference definitions, from the specification -/

/-- The pure quaternion `(v, 0)` of a 3-vector. -/
def pureQt (v : Vec3 α) : Vec4 α :=
  { c0 := v.c0
    c1 := v.c1
    c2 := v.c2
    c3 := 0 }

/-- The double-cross-product formula: `t = 2 * cross(q.xyz, v)` and
`result = v + q.w * t + cross(q.xyz, t)`. -/
def doubleCross (v : Vec3 α) (q : Vec4 α) : Vec3 α :=
  let t := ScaleV3 (CrossV3 (qVecOf q) v) 2
  AddV3 (AddV3 v (ScaleV3 t q.c3)) (CrossV3 (qVecOf q) t)

/-- The quaternion with real part `w` and imaginary parts `(x, y, z)`. -/
def toQuaternion (q : Vec4 α) : Quaternion α :=
  { re := q.c3
    imI := q.c0
    imJ := q.c1
    imK := q.c2 }

/-- The Hamilton product as the specification spells it: vector part
`a.w * b.xyz + b.w * a.xyz + a.xyz × b.xyz`, scalar part `a.w * b.w - a.xyz · b.xyz`. -/
def hamilton (a b : Vec4 α) : Vec4 α :=
  let vec := AddV3 (AddV3 (ScaleV3 (qVecOf b) a.c3) (ScaleV3 (qVecOf a) b.c3))
    (CrossV3 (qVecOf a) (qVecOf b))
  { c0 := vec.c0
    c1 := vec.c1
    c2 := vec.c2
    c3 := a.c3 * b.c3 - DotV3 (qVecOf a) (qVecOf b) }

/-- Componentwise negation of a 4-vector. -/
def negV4 (q : Vec4 α) : Vec4 α :=
  { c0 := -q.c0
    c1 := -q.c1
    c2 := -q.c2
    c3 := -q.c3 }

/-- The zero 4-vector. -/
def zeroV4 : Vec4 α :=
  { c0 := 0
    c1 := 0
    c2 := 0
    c3 := 0 }

/-- Componentwise negation of a 3-vector. -/
def negV3 (v : Vec3 α) : Vec3 α :=
  { c0 := -v.c0
    c1 := -v.c1
    c2 := -v.c2 }

/-- The zero 2-vector. -/
def zeroV2 : Vec2 α :=
  { c0 := 0
    c1 := 0 }

/-- The zero 3-vector. -/
def zeroV3 : Vec3 α :=
  { c0 := 0
    c1 := 0
    c2 := 0 }

/-- A 3-vector as a function on `Fin 3`, the carrier of the reference cross product. -/
def toFin3 (v : Vec3 α) : Fin 3 → α :=
  ![v.c0, v.c1, v.c2]

end Value

/-! ## Memory level

Pointers are addresses into a flat memory of scalars; a `Vec2`, `Vec3` or `Vec4` at
address `p` occupies the cells `p, p+1, ...`.  A composite literal is evaluated in full
before it is assigned to `*r`.  `new(T)` and an addressed local `var x T` take fresh
zeroed cells at `next`.  Every function returns its destination pointer. -/

namespace Heap

/-- The memory: the content of each cell, and the first address not yet allocated.
An address is a natural number. -/
structure Mem (α : Type) where
  cell : Nat → α
  next : Nat

section Access

variable {α : Type}

/-- The `Vec2` stored at `p`. -/
def load2 (m : Mem α) (p : Nat) : Vec2 α :=
  { c0 := m.cell p
    c1 := m.cell (p + 1) }

/-- The `Vec3` stored at `p`. -/
def load3 (m : Mem α) (p : Nat) : Vec3 α :=
  { c0 := m.cell p
    c1 := m.cell (p + 1)
    c2 := m.cell (p + 2) }

/-- The `Vec4` stored at `p`. -/
def load4 (m : Mem α) (p : Nat) : Vec4 α :=
  { c0 := m.cell p
    c1 := m.cell (p + 1)
    c2 := m.cell (p + 2)
    c3 := m.cell (p + 3) }

/-- The assignment `*p = x` of a `Vec2`. -/
def store2 (m : Mem α) (p : Nat) (x : Vec2 α) : Mem α :=
  { cell := fun i => if i = p then x.c0 else if i = p + 1 then x.c1 else m.cell i
    next := m.next }

/-- The assignment `*p = x` of a `Vec3`. -/
def store3 (m : Mem α) (p : Nat) (x : Vec3 α) : Mem α :=
  { cell := fun i =>
      if i = p then x.c0 else if i = p + 1 then x.c1 else if i = p + 2 then x.c2
      else m.cell i
    next := m.next }

/-- The assignment `*p = x` of a `Vec4`. -/
def store4 (m : Mem α) (p : Nat) (x : Vec4 α) : Mem α :=
  { cell := fun i =>
      if i = p then x.c0 else if i = p + 1 then x.c1 else if i = p + 2 then x.c2
      else if i = p + 3 then x.c3 else m.cell i
    next := m.next }

/-- `new(Vec3)`, also `var x Vec3` with `&x` taken: three fresh zeroed cells. -/
def new3 [Zero α] (m : Mem α) : Mem α × Nat :=
  ({ cell := fun i => if m.next ≤ i ∧ i < m.next + 3 then 0 else m.cell i
     next := m.next + 3 }, m.next)

/-- `var x Vec4` with `&x` taken: four fresh zeroed cells. -/
def new4 [Zero α] (m : Mem α) : Mem α × Nat :=
  ({ cell := fun i => if m.next ≤ i ∧ i < m.next + 4 then 0 else m.cell i
     next := m.next + 4 }, m.next)

end Access

section CrossOp

variable {α : Type} [Mul α] [Sub α]

/-- `CrossV3(r, a, b)`. -/
def CrossV3 (m : Mem α) (r a b : Nat) : Mem α × Nat :=
  (store3 m r
    { c0 := m.cell (a + 1) * m.cell (b + 2) - m.cell (a + 2) * m.cell (b + 1)
      c1 := m.cell (a + 2) * m.cell b - m.cell a * m.cell (b + 2)
      c2 := m.cell a * m.cell (b + 1) - m.cell (a + 1) * m.cell b }, r)

end CrossOp

section Ops

variable {α : Type} [LinearOrderedField α]

/-- `DotV2(a, b)`. -/
def DotV2 (m : Mem α) (a b : Nat) : α :=
  m.cell a * m.cell b + m.cell (a + 1) * m.cell (b + 1)

/-- `DotV3(a, b)`. -/
def DotV3 (m : Mem α) (a b : Nat) : α :=
  m.cell a * m.cell b + m.cell (a + 1) * m.cell (b + 1) + m.cell (a + 2) * m.cell (b + 2)

/-- `DotV4(a, b)`. -/
def DotV4 (m : Mem α) (a b : Nat) : α :=
  m.cell a * m.cell b + m.cell (a + 1) * m.cell (b + 1) + m.cell (a + 2) * m.cell (b + 2)
    + m.cell (a + 3) * m.cell (b + 3)

/-- `ScaleV2(r, v, s)`. -/
def ScaleV2 (m : Mem α) (r v : Nat) (s : α) : Mem α × Nat :=
  (store2 m r
    { c0 := m.cell v * s
      c1 := m.cell (v + 1) * s }, r)

/-- `ScaleV3(r, v, s)`. -/
def ScaleV3 (m : Mem α) (r v : Nat) (s : α) : Mem α × Nat :=
  (store3 m r
    { c0 := m.cell v * s
      c1 := m.cell (v + 1) * s
      c2 := m.cell (v + 2) * s }, r)

/-- `ScaleV4(r, v, s)`. -/
def ScaleV4 (m : Mem α) (r v : Nat) (s : α) : Mem α × Nat :=
  (store4 m r
    { c0 := m.cell v * s
      c1 := m.cell (v + 1) * s
      c2 := m.cell (v + 2) * s
      c3 := m.cell (v + 3) * s }, r)

/-- `NormalizeV2(r, v)`. -/
def NormalizeV2 (sqrt : α → α) (m : Mem α) (r v : Nat) : Mem α × Nat :=
  let c := ScaleV2 m r v (1 / sqrt (DotV2 m v v))
  (c.1, r)

/-- `NormalizeV3(r, v)`. -/
def NormalizeV3 (sqrt : α → α) (m : Mem α) (r v : Nat) : Mem α × Nat :=
  let c := ScaleV3 m r v (1 / sqrt (DotV3 m v v))
  (c.1, r)

/-- `NormalizeV4(r, v)`. -/
def NormalizeV4 (sqrt : α → α) (m : Mem α) (r v : Nat) : Mem α × Nat :=
  let c := ScaleV4 m r v (1 / sqrt (DotV4 m v v))
  (c.1, r)

/-- `AddV2(r, a, b)`. -/
def AddV2 (m : Mem α) (r a b : Nat) : Mem α × Nat :=
  (store2 m r
    { c0 := m.cell a + m.cell b
      c1 := m.cell (a + 1) + m.cell (b + 1) }, r)

/-- `AddV3(r, a, b)`. -/
def AddV3 (m : Mem α) (r a b : Nat) : Mem α × Nat :=
  (store3 m r
    { c0 := m.cell a + m.cell b
      c1 := m.cell (a + 1) + m.cell (b + 1)
      c2 := m.cell (a + 2) + m.cell (b + 2) }, r)

/-- `AddV4(r, a, b)`. -/
def AddV4 (m : Mem α) (r a b : Nat) : Mem α × Nat :=
  (store4 m r
    { c0 := m.cell a + m.cell b
      c1 := m.cell (a + 1) + m.cell (b + 1)
      c2 := m.cell (a + 2) + m.cell (b + 2)
      c3 := m.cell (a + 3) + m.cell (b + 3) }, r)

/-- `SubtractV3(r, a, b)`. -/
def SubtractV3 (m : Mem α) (r a b : Nat) : Mem α × Nat :=
  (store3 m r
    { c0 := m.cell a - m.cell b
      c1 := m.cell (a + 1) - m.cell (b + 1)
      c2 := m.cell (a + 2) - m.cell (b + 2) }, r)

/-- `LerpV3(r, a, b, t)`, with the locals `x`, `y` in fresh cells. -/
def LerpV3 (m : Mem α) (r a b : Nat) (t : α) : Mem α × Nat :=
  let x := new3 m
  let y := new3 x.1
  let c1 := ScaleV3 y.1 x.2 a (1 - t)
  let c2 := ScaleV3 c1.1 y.2 b t
  AddV3 c2.1 r x.2 y.2

/-- `MulQt(r, a, b)`. -/
def MulQt (m : Mem α) (r a b : Nat) : Mem α × Nat :=
  (store4 m r
    { c0 := m.cell a * m.cell (b + 3) + m.cell (a + 3) * m.cell b
        + m.cell (a + 1) * m.cell (b + 2) - m.cell (a + 2) * m.cell (b + 1)
      c1 := m.cell (a + 1) * m.cell (b + 3) + m.cell (a + 3) * m.cell (b + 1)
        + m.cell (a + 2) * m.cell b - m.cell a * m.cell (b + 2)
      c2 := m.cell (a + 2) * m.cell (b + 3) + m.cell (a + 3) * m.cell (b + 2)
        + m.cell a * m.cell (b + 1) - m.cell (a + 1) * m.cell b
      c3 := m.cell (a + 3) * m.cell (b + 3) - m.cell a * m.cell b
        - m.cell (a + 1) * m.cell (b + 1) - m.cell (a + 2) * m.cell (b + 2) }, r)

/-- `ConjugateQt(r, q)`. -/
def ConjugateQt (m : Mem α) (r q : Nat) : Mem α × Nat :=
  (store4 m r
    { c0 := -m.cell q
      c1 := -m.cell (q + 1)
      c2 := -m.cell (q + 2)
      c3 := m.cell (q + 3) }, r)

/-- `RotateQt(r, v, q)`.  `qVec` is the address `q` itself, read as a `*Vec3`.  Calls
in an argument list run left to right, before the call they are arguments of. -/
def RotateQt (m : Mem α) (r v q : Nat) : Mem α × Nat :=
  let qVec : Nat := q
  let dot := -DotV3 m qVec v
  let n1 := new3 m
  let conj := ScaleV3 n1.1 n1.2 qVec (-1)
  let intVec := new3 conj.1
  let s1 := ScaleV3 intVec.1 intVec.2 v (intVec.1.cell (q + 3))
  let n2 := new3 s1.1
  let x1 := CrossV3 n2.1 n2.2 qVec v
  let a1 := AddV3 x1.1 intVec.2 s1.2 x1.2
  let s2 := ScaleV3 a1.1 r intVec.2 (a1.1.cell (q + 3))
  let n3 := new3 s2.1
  let s3 := ScaleV3 n3.1 n3.2 conj.2 dot
  let a2 := AddV3 s3.1 r s2.2 s3.2
  let x2 := CrossV3 a2.1 intVec.2 intVec.2 conj.2
  AddV3 x2.1 r r x2.2

/-- `NlerpQt(r, a, b, t)`, with the locals `x`, `y`, `v` in fresh cells. -/
def NlerpQt (sqrt : α → α) (m : Mem α) (r a b : Nat) (t : α) : Mem α × Nat :=
  let x := new4 m
  let y := new4 x.1
  let v := new4 y.1
  let p := if DotV4 v.1 a b < 0 then ScaleV4 v.1 v.2 a (-1) else (v.1, a)
  let c1 := ScaleV4 p.1 x.2 p.2 (1 - t)
  let c2 := ScaleV4 c1.1 y.2 b t
  let c3 := AddV4 c2.1 r x.2 y.2
  NormalizeV4 sqrt c3.1 r c3.2

end Ops

/-- A concrete memory over `ℚ`: cell `i` holds `i + 1`, and the cells `0..7` are
allocated. -/
def sampleMem : Mem ℚ :=
  { cell := fun i => (i : ℚ) + 1
    next := 8 }

end Heap

/-! ## float32

Go's `float32` is IEEE-754 binary32.  The exact-scalar reading above has no overflow;
this section gives the binary32 product and difference, each rounded to nearest with
ties to even, for the inputs on which overflow decides the result. -/

/-- A `float32` value: not-a-number, an infinity with its sign, or a finite value,
`fin k` standing for `k * 2^(-149)`.  Every finite binary32 value is such a multiple
with `|k| < 2^277`.  The two zeros are identified; product and difference do not tell
them apart. -/
inductive F32 where
  | nan : F32
  | inf (neg : Bool) : F32
  | fin (k : Int) : F32
  deriving DecidableEq, Repr

namespace F32

/-- Bit length with fuel: the number of binary digits of `n` when `fuel ≥ n`. -/
def bitLenAux : Nat → Nat → Nat
  | 0, _ => 0
  | fuel + 1, n => if n = 0 then 0 else bitLenAux fuel (n / 2) + 1

/-- The number of binary digits of `n`. -/
def bitLen (n : Nat) : Nat :=
  bitLenAux n n

/-- Rounding to binary32 of the exact magnitude `a * 2^(-(149 + d))` with sign `neg`.
`s` low bits are dropped so that 24 significant bits remain, and never below the
subnormal spacing `2^(-149)`; the remainder rounds to nearest, ties to even; a result
of `2^128` or more is an infinity. -/
def round (neg : Bool) (a d : Nat) : F32 :=
  let s := max d (bitLen a - 24)
  let fl := a / 2 ^ s
  let rem := a % 2 ^ s
  let half := 2 ^ (s - 1)
  let m := if half < rem ∨ (rem = half ∧ fl % 2 = 1) then fl + 1 else fl
  let k := m * 2 ^ (s - d)
  if 2 ^ 277 ≤ k then inf neg else fin (if neg then -(k : Int) else (k : Int))

/-- The `float32` product `x * y`. -/
def mul : F32 → F32 → F32
  | nan, _ => nan
  | _, nan => nan
  | inf s, inf t => inf (s != t)
  | inf s, fin k => if k = 0 then nan else inf (s != decide (k < 0))
  | fin k, inf t => if k = 0 then nan else inf (decide (k < 0) != t)
  | fin j, fin k => round (decide (j * k < 0)) (j * k).natAbs 149

/-- The `float32` difference `x - y`. -/
def sub : F32 → F32 → F32
  | nan, _ => nan
  | _, nan => nan
  | inf s, inf t => if s = t then nan else inf s
  | inf s, fin _ => inf s
  | fin _, inf t => inf (!t)
  | fin j, fin k => round (decide (j - k < 0)) (j - k).natAbs 0

instance : Mul F32 := ⟨mul⟩

instance : Sub F32 := ⟨sub⟩

/-- The conversion `float32(n)` of a natural number. -/
def ofNat (n : Nat) : F32 :=
  round false (n * 2 ^ 149) 0

end F32

/-- The `Vec3` with every component `float32(2^64)`. -/
def hugeV3 : Vec3 F32 :=
  { c0 := F32.ofNat (2 ^ 64)
    c1 := F32.ofNat (2 ^ 64)
    c2 := F32.ofNat (2 ^ 64) }

/-- A `float32` memory with `hugeV3` at address 0 and a zeroed `Vec3` at address 3. -/
def hugeMem : Heap.Mem F32 :=
  Heap.store3 { cell := fun _ => F32.fin 0, next := 6 } 0 hugeV3

/-! ## Theorems -/

/-- C1: for every 3-vector `v` and every quaternion `q` over the reals, in particular
every unit quaternion, `RotateQt v q` is the vector part (components 0..2) of
`MulQt (MulQt q (v, 0)) (ConjugateQt q)`. -/
theorem RotateQt_eq_sandwich (v : Vec3 ℝ) (q : Vec4 ℝ) :
    RotateQt v q = qVecOf (MulQt (MulQt q (pureQt v)) (ConjugateQt q)) := by
  ext <;> simp only [RotateQt, qVecOf, MulQt, pureQt, ConjugateQt, AddV3, ScaleV3, CrossV3,
    DotV3] <;> ring

/-- C2: for every 3-vector `v` and every unit quaternion `q` over the reals,
`RotateQt v q` equals `v + q.w * t + cross(q.xyz, t)` with `t = 2 * cross(q.xyz, v)`. -/
theorem RotateQt_eq_doubleCross (v : Vec3 ℝ) (q : Vec4 ℝ) (hq : DotV4 q q = 1) :
    RotateQt v q = doubleCross v q := by
  simp only [DotV4] at hq
  ext
  · simp only [RotateQt, doubleCross, qVecOf, AddV3, ScaleV3, CrossV3, DotV3]
    linear_combination v.c0 * hq
  · simp only [RotateQt, doubleCross, qVecOf, AddV3, ScaleV3, CrossV3, DotV3]
    linear_combination v.c1 * hq
  · simp only [RotateQt, doubleCross, qVecOf, AddV3, ScaleV3, CrossV3, DotV3]
    linear_combination v.c2 * hq

/-- Witness for C2 at `v = (1, 2, 3)` and the unit quaternion `q = (0, 0, 1, 0)`. -/
theorem RotateQt_eq_doubleCross_witness :
    DotV4 (Vec4.mk (0 : ℝ) 0 1 0) (Vec4.mk 0 0 1 0) = 1 ∧
      RotateQt (Vec3.mk (1 : ℝ) 2 3) (Vec4.mk 0 0 1 0)
        = doubleCross (Vec3.mk 1 2 3) (Vec4.mk 0 0 1 0) :=
  ⟨by norm_num [DotV4], RotateQt_eq_doubleCross _ _ (by norm_num [DotV4])⟩

/-- C3: for all quaternions `a`, `b` and every 3-vector `v` over the reals, rotating `v`
by `MulQt a b` is rotating `v` by `b` first and then by `a`. -/
theorem RotateQt_MulQt (a b : Vec4 ℝ) (v : Vec3 ℝ) :
    RotateQt v (MulQt a b) = RotateQt (RotateQt v b) a := by
  ext <;> simp only [RotateQt, qVecOf, MulQt, AddV3, ScaleV3, CrossV3, DotV3] <;> ring

/-- C5: under the correspondence of `(x, y, z, w)` with the quaternion of real part `w`
and imaginary parts `(x, y, z)`, `MulQt a b` is the quaternion product `a * b`; its
vector part is `a.w * b.xyz + b.w * a.xyz + a.xyz × b.xyz` and its scalar part
`a.w * b.w - a.xyz · b.xyz`. -/
theorem MulQt_eq_hamilton (a b : Vec4 ℝ) :
    toQuaternion (MulQt a b) = toQuaternion a * toQuaternion b ∧
      MulQt a b = hamilton a b := by
  refine ⟨?_, ?_⟩
  · ext <;> simp [toQuaternion, MulQt] <;> ring
  · ext <;> simp only [MulQt, hamilton, qVecOf, AddV3, ScaleV3, CrossV3, DotV3] <;> ring

/-- C6: `ConjugateQt` negates components 0..2 and keeps component 3, and for a unit
quaternion `q` over the reals rotating by `q` and then by `ConjugateQt q` gives back
the vector. -/
theorem RotateQt_ConjugateQt (q : Vec4 ℝ) (v : Vec3 ℝ) (hq : DotV4 q q = 1) :
    ConjugateQt q = Vec4.mk (-q.c0) (-q.c1) (-q.c2) q.c3 ∧
      RotateQt (RotateQt v q) (ConjugateQt q) = v := by
  refine ⟨rfl, ?_⟩
  simp only [DotV4] at hq
  ext
  · simp only [RotateQt, ConjugateQt, qVecOf, AddV3, ScaleV3, CrossV3, DotV3]
    linear_combination
      (q.c0 * q.c0 + q.c1 * q.c1 + q.c2 * q.c2 + q.c3 * q.c3 + 1) * v.c0 * hq
  · simp only [RotateQt, ConjugateQt, qVecOf, AddV3, ScaleV3, CrossV3, DotV3]
    linear_combination
      (q.c0 * q.c0 + q.c1 * q.c1 + q.c2 * q.c2 + q.c3 * q.c3 + 1) * v.c1 * hq
  · simp only [RotateQt, ConjugateQt, qVecOf, AddV3, ScaleV3, CrossV3, DotV3]
    linear_combination
      (q.c0 * q.c0 + q.c1 * q.c1 + q.c2 * q.c2 + q.c3 * q.c3 + 1) * v.c2 * hq

/-- Witness for C6 at the unit quaternion `q = (0, 1, 0, 0)` and `v = (1, 2, 3)`. -/
theorem RotateQt_ConjugateQt_witness :
    DotV4 (Vec4.mk (0 : ℝ) 1 0 0) (Vec4.mk 0 1 0 0) = 1 ∧
      ConjugateQt (Vec4.mk (0 : ℝ) 1 0 0) = Vec4.mk (-0) (-1) (-0) 0 ∧
      RotateQt (RotateQt (Vec3.mk (1 : ℝ) 2 3) (Vec4.mk 0 1 0 0))
        (ConjugateQt (Vec4.mk 0 1 0 0)) = Vec3.mk 1 2 3 :=
  ⟨by norm_num [DotV4],
    RotateQt_ConjugateQt (Vec4.mk 0 1 0 0) (Vec3.mk 1 2 3) (by norm_num [DotV4])⟩

/-! ### Normalisation and `NlerpQt` -/

/-- A 4-vector other than zero has a positive squared norm. -/
theorem DotV4_self_pos (a : Vec4 ℝ) (ha : a ≠ zeroV4) : 0 < DotV4 a a := by
  by_contra hle
  apply ha
  simp only [DotV4, not_lt] at hle
  have e0 : a.c0 = 0 := by
    nlinarith [sq_nonneg a.c0, sq_nonneg a.c1, sq_nonneg a.c2, sq_nonneg a.c3]
  have e1 : a.c1 = 0 := by
    nlinarith [sq_nonneg a.c0, sq_nonneg a.c1, sq_nonneg a.c2, sq_nonneg a.c3]
  have e2 : a.c2 = 0 := by
    nlinarith [sq_nonneg a.c0, sq_nonneg a.c1, sq_nonneg a.c2, sq_nonneg a.c3]
  have e3 : a.c3 = 0 := by
    nlinarith [sq_nonneg a.c0, sq_nonneg a.c1, sq_nonneg a.c2, sq_nonneg a.c3]
  ext <;> simp [zeroV4, e0, e1, e2, e3]

/-- A 4-vector of positive squared norm is not the zero vector. -/
theorem ne_zeroV4_of_DotV4_pos (a : Vec4 ℝ) (h : 0 < DotV4 a a) : a ≠ zeroV4 := by
  intro e
  rw [e] at h
  simp [DotV4, zeroV4] at h

/-- Normalising a 4-vector of positive squared norm gives a unit vector. -/
theorem DotV4_NormalizeV4 (v : Vec4 ℝ) (h : 0 < DotV4 v v) :
    DotV4 (NormalizeV4 Real.sqrt v) (NormalizeV4 Real.sqrt v) = 1 := by
  have hs : Real.sqrt (DotV4 v v) ≠ 0 := ne_of_gt (Real.sqrt_pos.mpr h)
  have hsq : Real.sqrt (DotV4 v v) * Real.sqrt (DotV4 v v) = DotV4 v v :=
    Real.mul_self_sqrt h.le
  have key : DotV4 (NormalizeV4 Real.sqrt v) (NormalizeV4 Real.sqrt v)
      = DotV4 v v * (1 / Real.sqrt (DotV4 v v)) * (1 / Real.sqrt (DotV4 v v)) := by
    simp only [NormalizeV4, ScaleV4, DotV4]
    ring
  rw [key]
  field_simp

/-- Normalising a unit 4-vector leaves it unchanged. -/
theorem NormalizeV4_of_unit (v : Vec4 ℝ) (h : DotV4 v v = 1) :
    NormalizeV4 Real.sqrt v = v := by
  ext <;> simp [NormalizeV4, ScaleV4, h]

/-- The squared norm of the blend, expanded. -/
theorem DotV4_nlerpBlend (a b : Vec4 ℝ) (t : ℝ) :
    DotV4 (nlerpBlend a b t) (nlerpBlend a b t)
      = (1 - t) * (1 - t) * DotV4 a a + 2 * (t * (1 - t)) * |DotV4 a b|
        + t * t * DotV4 b b := by
  by_cases h : DotV4 a b < 0
  · rw [abs_of_neg h]
    simp only [nlerpBlend, if_pos h]
    simp only [DotV4, ScaleV4, AddV4]
    ring
  · rw [abs_of_nonneg (not_lt.mp h)]
    simp only [nlerpBlend, if_neg h]
    simp only [DotV4, ScaleV4, AddV4]
    ring

/-- On non-zero operands and `0 ≤ t ≤ 1` the blend has a positive squared norm. -/
theorem DotV4_nlerpBlend_pos (a b : Vec4 ℝ) (t : ℝ) (ha : a ≠ zeroV4) (hb : b ≠ zeroV4)
    (h0 : 0 ≤ t) (h1 : t ≤ 1) : 0 < DotV4 (nlerpBlend a b t) (nlerpBlend a b t) := by
  rw [DotV4_nlerpBlend]
  have pa := DotV4_self_pos a ha
  have pb := DotV4_self_pos b hb
  have h2 : 0 ≤ 1 - t := by linarith
  have m : 0 ≤ 2 * (t * (1 - t)) * |DotV4 a b| :=
    mul_nonneg (mul_nonneg zero_le_two (mul_nonneg h0 h2)) (abs_nonneg _)
  have l : 0 ≤ (1 - t) * (1 - t) * DotV4 a a := mul_nonneg (mul_nonneg h2 h2) pa.le
  have r : 0 ≤ t * t * DotV4 b b := mul_nonneg (mul_nonneg h0 h0) pb.le
  rcases h0.eq_or_lt with e | hpos
  · subst e
    have : 0 < (1 - 0) * (1 - 0) * DotV4 a a := by simpa using pa
    linarith
  · have : 0 < t * t * DotV4 b b := mul_pos (mul_pos hpos hpos) pb
    linarith

/-- C7: for non-zero quaternions `a`, `b` over the reals and `0 ≤ t ≤ 1`, the
sign-corrected blend that `NlerpQt` normalises is a non-zero vector, the square root
it divides by is not zero, and the result of `NlerpQt` has `DotV4 q q = 1`. -/
theorem NlerpQt_unit (a b : Vec4 ℝ) (t : ℝ) (ha : a ≠ zeroV4) (hb : b ≠ zeroV4)
    (h0 : 0 ≤ t) (h1 : t ≤ 1) :
    NlerpQt Real.sqrt a b t = NormalizeV4 Real.sqrt (nlerpBlend a b t) ∧
      nlerpBlend a b t ≠ zeroV4 ∧
      Real.sqrt (DotV4 (nlerpBlend a b t) (nlerpBlend a b t)) ≠ 0 ∧
      DotV4 (NlerpQt Real.sqrt a b t) (NlerpQt Real.sqrt a b t) = 1 := by
  have hpos := DotV4_nlerpBlend_pos a b t ha hb h0 h1
  exact ⟨rfl, ne_zeroV4_of_DotV4_pos _ hpos, ne_of_gt (Real.sqrt_pos.mpr hpos),
    DotV4_NormalizeV4 _ hpos⟩

/-- Witness for C7 at `a = (0, 0, 0, 1)`, `b = (1, 0, 0, 0)` and `t = 1/2`. -/
theorem NlerpQt_unit_witness :
    (Vec4.mk (0 : ℝ) 0 0 1 ≠ zeroV4 ∧ Vec4.mk (1 : ℝ) 0 0 0 ≠ zeroV4 ∧
      (0 : ℝ) ≤ 1 / 2 ∧ (1 / 2 : ℝ) ≤ 1) ∧
    (NlerpQt Real.sqrt (Vec4.mk 0 0 0 1) (Vec4.mk 1 0 0 0) (1 / 2)
        = NormalizeV4 Real.sqrt (nlerpBlend (Vec4.mk 0 0 0 1) (Vec4.mk 1 0 0 0) (1 / 2)) ∧
      nlerpBlend (Vec4.mk (0 : ℝ) 0 0 1) (Vec4.mk 1 0 0 0) (1 / 2) ≠ zeroV4 ∧
      Real.sqrt (DotV4 (nlerpBlend (Vec4.mk (0 : ℝ) 0 0 1) (Vec4.mk 1 0 0 0) (1 / 2))
        (nlerpBlend (Vec4.mk 0 0 0 1) (Vec4.mk 1 0 0 0) (1 / 2))) ≠ 0 ∧
      DotV4 (NlerpQt Real.sqrt (Vec4.mk 0 0 0 1) (Vec4.mk 1 0 0 0) (1 / 2))
        (NlerpQt Real.sqrt (Vec4.mk 0 0 0 1) (Vec4.mk 1 0 0 0) (1 / 2)) = 1) :=
  ⟨⟨ne_zeroV4_of_DotV4_pos _ (by norm_num [DotV4]),
      ne_zeroV4_of_DotV4_pos _ (by norm_num [DotV4]), by norm_num, by norm_num⟩,
    NlerpQt_unit (Vec4.mk 0 0 0 1) (Vec4.mk 1 0 0 0) (1 / 2)
      (ne_zeroV4_of_DotV4_pos _ (by norm_num [DotV4]))
      (ne_zeroV4_of_DotV4_pos _ (by norm_num [DotV4])) (by norm_num) (by norm_num)⟩

/-- C8: for every unit quaternion `q` over the reals and every `t`, also outside
`[0, 1]`, `NlerpQt q q t = q`. -/
theorem NlerpQt_self (q : Vec4 ℝ) (t : ℝ) (hq : DotV4 q q = 1) :
    NlerpQt Real.sqrt q q t = q := by
  have hn : ¬ DotV4 q q < 0 := by rw [hq]; norm_num
  have hb : AddV4 (ScaleV4 q (1 - t)) (ScaleV4 q t) = q := by
    ext <;> simp only [AddV4, ScaleV4] <;> ring
  simp only [NlerpQt, if_neg hn, hb]
  exact NormalizeV4_of_unit q hq

/-- Witness for C8 at the unit quaternion `q = (0, 0, 1, 0)` and `t = 3`. -/
theorem NlerpQt_self_witness :
    DotV4 (Vec4.mk (0 : ℝ) 0 1 0) (Vec4.mk 0 0 1 0) = 1 ∧
      NlerpQt Real.sqrt (Vec4.mk 0 0 1 0) (Vec4.mk 0 0 1 0) 3 = Vec4.mk 0 0 1 0 :=
  ⟨by norm_num [DotV4], NlerpQt_self (Vec4.mk 0 0 1 0) 3 (by norm_num [DotV4])⟩

/-- C9: for every unit quaternion `q` over the reals, `NlerpQt q (-q) 0.5` is
well-defined.  `NlerpQt` normalises the sign-corrected blend; that blend is not zero
(without the sign correction `q` and `-q` cancel to zero), the square root divided by
is not zero, and the result is the unit quaternion `-q`, so it is equal to `q` or to
`-q`. -/
theorem NlerpQt_neg_half (q : Vec4 ℝ) (hq : DotV4 q q = 1) :
    NlerpQt Real.sqrt q (negV4 q) (1 / 2)
        = NormalizeV4 Real.sqrt (nlerpBlend q (negV4 q) (1 / 2)) ∧
      AddV4 (ScaleV4 q (1 - 1 / 2)) (ScaleV4 (negV4 q) (1 / 2)) = zeroV4 ∧
      nlerpBlend q (negV4 q) (1 / 2) ≠ zeroV4 ∧
      Real.sqrt (DotV4 (nlerpBlend q (negV4 q) (1 / 2)) (nlerpBlend q (negV4 q) (1 / 2))) ≠ 0 ∧
      DotV4 (NlerpQt Real.sqrt q (negV4 q) (1 / 2)) (NlerpQt Real.sqrt q (negV4 q) (1 / 2)) = 1 ∧
      NlerpQt Real.sqrt q (negV4 q) (1 / 2) = negV4 q ∧
      (NlerpQt Real.sqrt q (negV4 q) (1 / 2) = q ∨
        NlerpQt Real.sqrt q (negV4 q) (1 / 2) = negV4 q) := by
  have hd : DotV4 q (negV4 q) < 0 := by
    have e : DotV4 q (negV4 q) = -DotV4 q q := by
      simp only [DotV4, negV4]
      ring
    rw [e, hq]
    norm_num
  have hu : DotV4 (negV4 q) (negV4 q) = 1 := by
    rw [← hq]
    simp only [DotV4, negV4]
    ring
  have hc : AddV4 (ScaleV4 q (1 - 1 / 2)) (ScaleV4 (negV4 q) (1 / 2)) = zeroV4 := by
    ext <;> simp only [AddV4, ScaleV4, negV4, zeroV4] <;> ring
  have hb : nlerpBlend q (negV4 q) (1 / 2) = negV4 q := by
    simp only [nlerpBlend, if_pos hd]
    ext <;> simp only [AddV4, ScaleV4, negV4] <;> ring
  have e : NlerpQt Real.sqrt q (negV4 q) (1 / 2)
      = NormalizeV4 Real.sqrt (nlerpBlend q (negV4 q) (1 / 2)) := rfl
  have hr : NlerpQt Real.sqrt q (negV4 q) (1 / 2) = negV4 q := by
    rw [e, hb]
    exact NormalizeV4_of_unit _ hu
  have hpos : 0 < DotV4 (negV4 q) (negV4 q) := by rw [hu]; norm_num
  refine ⟨e, hc, ?_, ?_, ?_, hr, Or.inr hr⟩
  · rw [hb]
    exact ne_zeroV4_of_DotV4_pos _ hpos
  · rw [hb]
    exact ne_of_gt (Real.sqrt_pos.mpr hpos)
  · rw [hr]
    exact hu

/-- Witness for C9 at the unit quaternion `q = (1, 0, 0, 0)`. -/
theorem NlerpQt_neg_half_witness :
    DotV4 (Vec4.mk (1 : ℝ) 0 0 0) (Vec4.mk 1 0 0 0) = 1 ∧
      NlerpQt Real.sqrt (Vec4.mk 1 0 0 0) (negV4 (Vec4.mk 1 0 0 0)) (1 / 2)
        = NormalizeV4 Real.sqrt
            (nlerpBlend (Vec4.mk 1 0 0 0) (negV4 (Vec4.mk 1 0 0 0)) (1 / 2)) ∧
      nlerpBlend (Vec4.mk (1 : ℝ) 0 0 0) (negV4 (Vec4.mk 1 0 0 0)) (1 / 2) ≠ zeroV4 ∧
      NlerpQt Real.sqrt (Vec4.mk 1 0 0 0) (negV4 (Vec4.mk 1 0 0 0)) (1 / 2)
        = negV4 (Vec4.mk 1 0 0 0) :=
  have h := NlerpQt_neg_half (Vec4.mk 1 0 0 0) (by norm_num [DotV4])
  ⟨by norm_num [DotV4], h.1, h.2.2.1, h.2.2.2.2.2.1⟩

/-- C10, as stated, fails: with `a = (0, 0, 0, 1)`, `b = (0, 0, 0, -1)` and `t = 0`,
`NlerpQt a b t = (0, 0, 0, -1)` while `NlerpQt b a (1 - t) = (0, 0, 0, 1)`. -/
theorem NlerpQt_not_comm :
    NlerpQt Real.sqrt (Vec4.mk (0 : ℝ) 0 0 1) (Vec4.mk 0 0 0 (-1)) 0 = Vec4.mk 0 0 0 (-1) ∧
      NlerpQt Real.sqrt (Vec4.mk (0 : ℝ) 0 0 (-1)) (Vec4.mk 0 0 0 1) (1 - 0)
        = Vec4.mk 0 0 0 1 ∧
      NlerpQt Real.sqrt (Vec4.mk (0 : ℝ) 0 0 1) (Vec4.mk 0 0 0 (-1)) 0
        ≠ NlerpQt Real.sqrt (Vec4.mk 0 0 0 (-1)) (Vec4.mk 0 0 0 1) (1 - 0) := by
  have e1 : NlerpQt Real.sqrt (Vec4.mk (0 : ℝ) 0 0 1) (Vec4.mk 0 0 0 (-1)) 0
      = Vec4.mk 0 0 0 (-1) := by
    ext <;> norm_num [NlerpQt, NormalizeV4, ScaleV4, AddV4, DotV4]
  have e2 : NlerpQt Real.sqrt (Vec4.mk (0 : ℝ) 0 0 (-1)) (Vec4.mk 0 0 0 1) (1 - 0)
      = Vec4.mk 0 0 0 1 := by
    ext <;> norm_num [NlerpQt, NormalizeV4, ScaleV4, AddV4, DotV4]
  refine ⟨e1, e2, ?_⟩
  rw [e1, e2]
  intro h
  have := congrArg Vec4.c3 h
  norm_num at this

/-- C10, amended: for all quaternions `a`, `b` over the reals and every `t`,
`NlerpQt a b t` equals `NlerpQt b a (1 - t)` when `DotV4 a b ≥ 0` and its componentwise
negation when `DotV4 a b < 0`. -/
theorem NlerpQt_comm_up_to_sign (a b : Vec4 ℝ) (t : ℝ) :
    NlerpQt Real.sqrt a b t
      = if DotV4 a b < 0 then negV4 (NlerpQt Real.sqrt b a (1 - t))
        else NlerpQt Real.sqrt b a (1 - t) := by
  have hc : DotV4 b a = DotV4 a b := by
    simp only [DotV4]
    ring
  by_cases h : DotV4 a b < 0
  · have hb : AddV4 (ScaleV4 (ScaleV4 b (-1)) (1 - (1 - t))) (ScaleV4 a (1 - t))
        = negV4 (AddV4 (ScaleV4 (ScaleV4 a (-1)) (1 - t)) (ScaleV4 b t)) := by
      ext <;> simp only [AddV4, ScaleV4, negV4] <;> ring
    have hd : ∀ v : Vec4 ℝ, DotV4 (negV4 v) (negV4 v) = DotV4 v v := by
      intro v
      simp only [DotV4, negV4]
      ring
    simp only [NlerpQt, hc, if_pos h, hb, NormalizeV4, hd]
    ext <;> simp only [ScaleV4, negV4] <;> ring
  · have hb : AddV4 (ScaleV4 b (1 - (1 - t))) (ScaleV4 a (1 - t))
        = AddV4 (ScaleV4 a (1 - t)) (ScaleV4 b t) := by
      ext <;> simp only [AddV4, ScaleV4] <;> ring
    simp only [NlerpQt, hc, if_neg h, hb]

/-! ### Normalisation in each dimension -/

/-- A 2-vector other than zero has a positive squared norm. -/
theorem DotV2_self_pos (a : Vec2 ℝ) (ha : a ≠ zeroV2) : 0 < DotV2 a a := by
  by_contra hle
  apply ha
  simp only [DotV2, not_lt] at hle
  have e0 : a.c0 = 0 := by nlinarith [sq_nonneg a.c0, sq_nonneg a.c1]
  have e1 : a.c1 = 0 := by nlinarith [sq_nonneg a.c0, sq_nonneg a.c1]
  ext <;> simp [zeroV2, e0, e1]

/-- A 3-vector other than zero has a positive squared norm. -/
theorem DotV3_self_pos (a : Vec3 ℝ) (ha : a ≠ zeroV3) : 0 < DotV3 a a := by
  by_contra hle
  apply ha
  simp only [DotV3, not_lt] at hle
  have e0 : a.c0 = 0 := by nlinarith [sq_nonneg a.c0, sq_nonneg a.c1, sq_nonneg a.c2]
  have e1 : a.c1 = 0 := by nlinarith [sq_nonneg a.c0, sq_nonneg a.c1, sq_nonneg a.c2]
  have e2 : a.c2 = 0 := by nlinarith [sq_nonneg a.c0, sq_nonneg a.c1, sq_nonneg a.c2]
  ext <;> simp [zeroV3, e0, e1, e2]

/-- Normalising a 2-vector of positive squared norm gives a unit vector. -/
theorem DotV2_NormalizeV2 (v : Vec2 ℝ) (h : 0 < DotV2 v v) :
    DotV2 (NormalizeV2 Real.sqrt v) (NormalizeV2 Real.sqrt v) = 1 := by
  have hs : Real.sqrt (DotV2 v v) ≠ 0 := ne_of_gt (Real.sqrt_pos.mpr h)
  have hsq : Real.sqrt (DotV2 v v) * Real.sqrt (DotV2 v v) = DotV2 v v :=
    Real.mul_self_sqrt h.le
  have key : DotV2 (NormalizeV2 Real.sqrt v) (NormalizeV2 Real.sqrt v)
      = DotV2 v v * (1 / Real.sqrt (DotV2 v v)) * (1 / Real.sqrt (DotV2 v v)) := by
    simp only [NormalizeV2, ScaleV2, DotV2]
    ring
  rw [key]
  field_simp

/-- Normalising a 3-vector of positive squared norm gives a unit vector. -/
theorem DotV3_NormalizeV3 (v : Vec3 ℝ) (h : 0 < DotV3 v v) :
    DotV3 (NormalizeV3 Real.sqrt v) (NormalizeV3 Real.sqrt v) = 1 := by
  have hs : Real.sqrt (DotV3 v v) ≠ 0 := ne_of_gt (Real.sqrt_pos.mpr h)
  have hsq : Real.sqrt (DotV3 v v) * Real.sqrt (DotV3 v v) = DotV3 v v :=
    Real.mul_self_sqrt h.le
  have key : DotV3 (NormalizeV3 Real.sqrt v) (NormalizeV3 Real.sqrt v)
      = DotV3 v v * (1 / Real.sqrt (DotV3 v v)) * (1 / Real.sqrt (DotV3 v v)) := by
    simp only [NormalizeV3, ScaleV3, DotV3]
    ring
  rw [key]
  field_simp

/-- The square root of five lies strictly between 2.2360 and 2.2361. -/
theorem sqrt_five_bounds : (2.2360 : ℝ) < Real.sqrt 5 ∧ Real.sqrt 5 < 2.2361 := by
  constructor
  · rw [Real.lt_sqrt (by norm_num)]
    norm_num
  · rw [Real.sqrt_lt' (by norm_num)]
    norm_num

/-- C11: for each dimension `N` in 2, 3, 4 and every non-zero `N`-vector `a` over the
reals, `NormalizeVN a` is `a` with every component multiplied by `1 / sqrt (DotVN a a)`
and has `DotVN` with itself equal to 1.  From the tests: `NormalizeV2 (1, 2)` is
`(1 / sqrt 5, 2 / sqrt 5)`, within `1e-4` of `(0.447213, 0.894427)`. -/
theorem Normalize_unit :
    (∀ a : Vec2 ℝ, a ≠ zeroV2 →
      NormalizeV2 Real.sqrt a
        = Vec2.mk (a.c0 * (1 / Real.sqrt (DotV2 a a))) (a.c1 * (1 / Real.sqrt (DotV2 a a))) ∧
      DotV2 (NormalizeV2 Real.sqrt a) (NormalizeV2 Real.sqrt a) = 1) ∧
    (∀ a : Vec3 ℝ, a ≠ zeroV3 →
      NormalizeV3 Real.sqrt a
        = Vec3.mk (a.c0 * (1 / Real.sqrt (DotV3 a a))) (a.c1 * (1 / Real.sqrt (DotV3 a a)))
            (a.c2 * (1 / Real.sqrt (DotV3 a a))) ∧
      DotV3 (NormalizeV3 Real.sqrt a) (NormalizeV3 Real.sqrt a) = 1) ∧
    (∀ a : Vec4 ℝ, a ≠ zeroV4 →
      NormalizeV4 Real.sqrt a
        = Vec4.mk (a.c0 * (1 / Real.sqrt (DotV4 a a))) (a.c1 * (1 / Real.sqrt (DotV4 a a)))
            (a.c2 * (1 / Real.sqrt (DotV4 a a))) (a.c3 * (1 / Real.sqrt (DotV4 a a))) ∧
      DotV4 (NormalizeV4 Real.sqrt a) (NormalizeV4 Real.sqrt a) = 1) ∧
    NormalizeV2 Real.sqrt (Vec2.mk 1 2) = Vec2.mk (1 / Real.sqrt 5) (2 / Real.sqrt 5) ∧
    |(NormalizeV2 Real.sqrt (Vec2.mk 1 2)).c0 - 0.447213| < 1 / 10000 ∧
    |(NormalizeV2 Real.sqrt (Vec2.mk 1 2)).c1 - 0.894427| < 1 / 10000 := by
  have e : NormalizeV2 Real.sqrt (Vec2.mk 1 2)
      = Vec2.mk (1 / Real.sqrt 5) (2 / Real.sqrt 5) := by
    have d : DotV2 (Vec2.mk (1 : ℝ) 2) (Vec2.mk 1 2) = 5 := by norm_num [DotV2]
    ext <;> simp only [NormalizeV2, ScaleV2, d] <;> ring
  obtain ⟨lo, hi⟩ := sqrt_five_bounds
  have hpos : (0 : ℝ) < Real.sqrt 5 := by linarith
  refine ⟨fun a ha => ⟨rfl, DotV2_NormalizeV2 a (DotV2_self_pos a ha)⟩,
    fun a ha => ⟨rfl, DotV3_NormalizeV3 a (DotV3_self_pos a ha)⟩,
    fun a ha => ⟨rfl, DotV4_NormalizeV4 a (DotV4_self_pos a ha)⟩, e, ?_, ?_⟩
  · rw [e, abs_lt]
    constructor
    · rw [lt_sub_iff_add_lt, lt_div_iff₀ hpos]
      nlinarith
    · rw [sub_lt_iff_lt_add, div_lt_iff₀ hpos]
      nlinarith
  · rw [e, abs_lt]
    constructor
    · rw [lt_sub_iff_add_lt, lt_div_iff₀ hpos]
      nlinarith
    · rw [sub_lt_iff_lt_add, div_lt_iff₀ hpos]
      nlinarith

/-- Witness for C11 at `(3, 4)`, `(1, 2, 2)` and `(1, 1, 1, 1)`. -/
theorem Normalize_unit_witness :
    (Vec2.mk (3 : ℝ) 4 ≠ zeroV2 ∧ Vec3.mk (1 : ℝ) 2 2 ≠ zeroV3 ∧
      Vec4.mk (1 : ℝ) 1 1 1 ≠ zeroV4) ∧
    DotV2 (NormalizeV2 Real.sqrt (Vec2.mk 3 4)) (NormalizeV2 Real.sqrt (Vec2.mk 3 4)) = 1 ∧
    DotV3 (NormalizeV3 Real.sqrt (Vec3.mk 1 2 2)) (NormalizeV3 Real.sqrt (Vec3.mk 1 2 2)) = 1 ∧
    DotV4 (NormalizeV4 Real.sqrt (Vec4.mk 1 1 1 1)) (NormalizeV4 Real.sqrt (Vec4.mk 1 1 1 1))
      = 1 :=
  have h2 : Vec2.mk (3 : ℝ) 4 ≠ zeroV2 := fun h => by
    have := congrArg Vec2.c0 h
    norm_num [zeroV2] at this
  have h3 : Vec3.mk (1 : ℝ) 2 2 ≠ zeroV3 := fun h => by
    have := congrArg Vec3.c0 h
    norm_num [zeroV3] at this
  have h4 : Vec4.mk (1 : ℝ) 1 1 1 ≠ zeroV4 := fun h => by
    have := congrArg Vec4.c0 h
    norm_num [zeroV4] at this
  ⟨⟨h2, h3, h4⟩, (Normalize_unit.1 _ h2).2, (Normalize_unit.2.1 _ h3).2,
    (Normalize_unit.2.2.1 _ h4).2⟩

/-! ### Vector primitives -/

/-- C12: `CrossV3` is the standard right-handed cross product: its components are
`(a1*b2 - a2*b1, a2*b0 - a0*b2, a0*b1 - a1*b0)`, it agrees with the reference cross
product on `Fin 3 → ℝ`, `e_x × e_y = e_z`, and from the tests
`CrossV3 (1,2,3) (4,5,6) = (-3, 6, -3)`. -/
theorem CrossV3_standard :
    (∀ a b : Vec3 ℝ,
      CrossV3 a b = Vec3.mk (a.c1 * b.c2 - a.c2 * b.c1) (a.c2 * b.c0 - a.c0 * b.c2)
        (a.c0 * b.c1 - a.c1 * b.c0)) ∧
    (∀ a b : Vec3 ℝ, toFin3 (CrossV3 a b) = crossProduct (toFin3 a) (toFin3 b)) ∧
    CrossV3 (Vec3.mk (1 : ℝ) 0 0) (Vec3.mk 0 1 0) = Vec3.mk 0 0 1 ∧
    CrossV3 (Vec3.mk (1 : ℝ) 2 3) (Vec3.mk 4 5 6) = Vec3.mk (-3) 6 (-3) := by
  refine ⟨fun a b => rfl, fun a b => ?_, ?_, ?_⟩
  · rw [cross_apply]
    simp [toFin3, CrossV3]
  · ext <;> norm_num [CrossV3]
  · ext <;> norm_num [CrossV3]

/-- C13: the cross product is orthogonal to both inputs: for all 3-vectors `a`, `b`
over the reals, `DotV3 (CrossV3 a b) a = 0` and `DotV3 (CrossV3 a b) b = 0`. -/
theorem CrossV3_orthogonal (a b : Vec3 ℝ) :
    DotV3 (CrossV3 a b) a = 0 ∧ DotV3 (CrossV3 a b) b = 0 := by
  constructor <;> simp only [DotV3, CrossV3] <;> ring

/-- C14: the cross product is anti-commutative: `CrossV3 a b` is the componentwise
negation of `CrossV3 b a`, equivalently `ScaleV3 (CrossV3 b a) (-1)`. -/
theorem CrossV3_anticomm (a b : Vec3 ℝ) :
    CrossV3 a b = negV3 (CrossV3 b a) ∧ CrossV3 a b = ScaleV3 (CrossV3 b a) (-1) := by
  constructor <;> ext <;> simp only [CrossV3, negV3, ScaleV3] <;> ring

/-- C17: `LerpV3` is unclamped linear interpolation: for all 3-vectors `a`, `b` and
every scalar `t`, component `i` of `LerpV3 a b t` is `a[i]*(1-t) + b[i]*t`; in
particular `LerpV3 a b 0 = a` and `LerpV3 a b 1 = b`; and
`LerpV3 (1,0,0) (0,1,0) 0.5 = (0.5, 0.5, 0)`, `LerpV3 (1,0,0) (0,1,0) 2 = (-1, 2, 0)`. -/
theorem LerpV3_formula :
    (∀ (a b : Vec3 ℝ) (t : ℝ),
      LerpV3 a b t = Vec3.mk (a.c0 * (1 - t) + b.c0 * t) (a.c1 * (1 - t) + b.c1 * t)
        (a.c2 * (1 - t) + b.c2 * t)) ∧
    (∀ a b : Vec3 ℝ, LerpV3 a b 0 = a) ∧
    (∀ a b : Vec3 ℝ, LerpV3 a b 1 = b) ∧
    LerpV3 (Vec3.mk (1 : ℝ) 0 0) (Vec3.mk 0 1 0) (1 / 2) = Vec3.mk (1 / 2) (1 / 2) 0 ∧
    LerpV3 (Vec3.mk (1 : ℝ) 0 0) (Vec3.mk 0 1 0) 2 = Vec3.mk (-1) 2 0 := by
  refine ⟨fun a b t => rfl, fun a b => ?_, fun a b => ?_, ?_, ?_⟩
  · ext <;> simp [LerpV3, AddV3, ScaleV3]
  · ext <;> simp [LerpV3, AddV3, ScaleV3]
  · ext <;> norm_num [LerpV3, AddV3, ScaleV3]
  · ext <;> norm_num [LerpV3, AddV3, ScaleV3]

/-- C18: rotating `(1,0,0)` by the unit quaternion of a 90 degree rotation about
`(0,0,1)`, `q = (0, 0, sin (π/4), cos (π/4)) = (0, 0, √2/2, √2/2)`, gives `(0,1,0)`. -/
theorem RotateQt_quarter_turn :
    Vec4.mk 0 0 (Real.sin (Real.pi / 4)) (Real.cos (Real.pi / 4))
      = Vec4.mk 0 0 (Real.sqrt 2 / 2) (Real.sqrt 2 / 2) ∧
    DotV4 (Vec4.mk 0 0 (Real.sqrt 2 / 2) (Real.sqrt 2 / 2))
      (Vec4.mk 0 0 (Real.sqrt 2 / 2) (Real.sqrt 2 / 2)) = 1 ∧
    RotateQt (Vec3.mk 1 0 0) (Vec4.mk 0 0 (Real.sqrt 2 / 2) (Real.sqrt 2 / 2))
      = Vec3.mk 0 1 0 := by
  have h2 : Real.sqrt 2 * Real.sqrt 2 = 2 := Real.mul_self_sqrt (by norm_num)
  refine ⟨?_, ?_, ?_⟩
  · rw [Real.sin_pi_div_four, Real.cos_pi_div_four]
  · simp only [DotV4]
    linear_combination (1 / 2 : ℝ) * h2
  · ext
    · simp only [RotateQt, qVecOf, AddV3, ScaleV3, CrossV3, DotV3]
      linear_combination (0 : ℝ) * h2
    · simp only [RotateQt, qVecOf, AddV3, ScaleV3, CrossV3, DotV3]
      linear_combination (1 / 2 : ℝ) * h2
    · simp only [RotateQt, qVecOf, AddV3, ScaleV3, CrossV3, DotV3]
      ring

/-- C19: the dot product is commutative in every dimension, and from the tests
`DotV2 (1,2) (3,4) = 11` and `DotV3 (1,2,3) (4,5,6) = 32`. -/
theorem Dot_comm :
    (∀ a b : Vec2 ℝ, DotV2 a b = DotV2 b a) ∧
    (∀ a b : Vec3 ℝ, DotV3 a b = DotV3 b a) ∧
    (∀ a b : Vec4 ℝ, DotV4 a b = DotV4 b a) ∧
    DotV2 (Vec2.mk (1 : ℝ) 2) (Vec2.mk 3 4) = 11 ∧
    DotV3 (Vec3.mk (1 : ℝ) 2 3) (Vec3.mk 4 5 6) = 32 := by
  refine ⟨fun a b => ?_, fun a b => ?_, fun a b => ?_, ?_, ?_⟩
  · simp only [DotV2]
    ring
  · simp only [DotV3]
    ring
  · simp only [DotV4]
    ring
  · norm_num [DotV2]
  · norm_num [DotV3]

/-- C20: `RotateQt` scales the squared length by the square of `DotV4 q q`, for every
3-vector `v` and every quaternion `q` over the reals, unit or not.  Hence a unit `q`
preserves the length `sqrt (DotV3 v v)`, and for a non-unit `q` and a non-zero `v` the
result has a different length from `v`. -/
theorem RotateQt_norm (v : Vec3 ℝ) (q : Vec4 ℝ) :
    DotV3 (RotateQt v q) (RotateQt v q) = DotV4 q q ^ 2 * DotV3 v v ∧
    (DotV4 q q = 1 →
      Real.sqrt (DotV3 (RotateQt v q) (RotateQt v q)) = Real.sqrt (DotV3 v v)) ∧
    (DotV4 q q ≠ 1 → v ≠ zeroV3 →
      Real.sqrt (DotV3 (RotateQt v q) (RotateQt v q)) ≠ Real.sqrt (DotV3 v v)) := by
  have key : DotV3 (RotateQt v q) (RotateQt v q) = DotV4 q q ^ 2 * DotV3 v v := by
    simp only [RotateQt, qVecOf, AddV3, ScaleV3, CrossV3, DotV3, DotV4]
    ring
  have hN : 0 ≤ DotV4 q q := by
    simp only [DotV4]
    nlinarith [mul_self_nonneg q.c0, mul_self_nonneg q.c1, mul_self_nonneg q.c2,
      mul_self_nonneg q.c3]
  have hd : 0 ≤ DotV3 v v := by
    simp only [DotV3]
    nlinarith [mul_self_nonneg v.c0, mul_self_nonneg v.c1, mul_self_nonneg v.c2]
  refine ⟨key, fun hq => ?_, fun hq hv hs => ?_⟩
  · rw [key, hq]
    norm_num
  · have hpos : 0 < DotV3 v v := DotV3_self_pos v hv
    have hR : 0 ≤ DotV3 (RotateQt v q) (RotateQt v q) := by
      rw [key]
      positivity
    have e : DotV4 q q ^ 2 * DotV3 v v = DotV3 v v := by
      rw [← key]
      exact (Real.sqrt_inj hR hd).mp hs
    have e2 : (DotV4 q q - 1) * (DotV4 q q + 1) = 0 := by
      have e3 : (DotV4 q q ^ 2 - 1) * DotV3 v v = 0 := by linarith
      rcases mul_eq_zero.mp e3 with h | h
      · linarith
      · exact absurd h (ne_of_gt hpos)
    rcases mul_eq_zero.mp e2 with h | h
    · exact hq (by linarith)
    · linarith

/-- Witness for C20 at `v = (1, 0, 0)` with the non-unit quaternion `q = (0, 0, 0, 2)`,
and with the unit quaternion `q = (0, 0, 1, 0)`. -/
theorem RotateQt_norm_witness :
    (DotV4 (Vec4.mk (0 : ℝ) 0 0 2) (Vec4.mk 0 0 0 2) ≠ 1 ∧ Vec3.mk (1 : ℝ) 0 0 ≠ zeroV3 ∧
      DotV4 (Vec4.mk (0 : ℝ) 0 1 0) (Vec4.mk 0 0 1 0) = 1) ∧
    Real.sqrt (DotV3 (RotateQt (Vec3.mk 1 0 0) (Vec4.mk 0 0 0 2))
        (RotateQt (Vec3.mk 1 0 0) (Vec4.mk 0 0 0 2)))
      ≠ Real.sqrt (DotV3 (Vec3.mk 1 0 0) (Vec3.mk 1 0 0)) ∧
    Real.sqrt (DotV3 (RotateQt (Vec3.mk 1 0 0) (Vec4.mk 0 0 1 0))
        (RotateQt (Vec3.mk 1 0 0) (Vec4.mk 0 0 1 0)))
      = Real.sqrt (DotV3 (Vec3.mk 1 0 0) (Vec3.mk 1 0 0)) :=
  have hq : DotV4 (Vec4.mk (0 : ℝ) 0 0 2) (Vec4.mk 0 0 0 2) ≠ 1 := by norm_num [DotV4]
  have hv : Vec3.mk (1 : ℝ) 0 0 ≠ zeroV3 := fun h => by
    have := congrArg Vec3.c0 h
    norm_num [zeroV3] at this
  have hu : DotV4 (Vec4.mk (0 : ℝ) 0 1 0) (Vec4.mk 0 0 1 0) = 1 := by norm_num [DotV4]
  ⟨⟨hq, hv, hu⟩, (RotateQt_norm (Vec3.mk 1 0 0) (Vec4.mk 0 0 0 2)).2.2 hq hv,
    (RotateQt_norm (Vec3.mk 1 0 0) (Vec4.mk 0 0 1 0)).2.1 hu⟩

/-! ### Memory level: loads, stores and allocation -/

namespace Heap

section AccessLemmas

variable {α : Type}

theorem next_store2 (m : Mem α) (p : Nat) (x : Vec2 α) : (store2 m p x).next = m.next := rfl

theorem next_store3 (m : Mem α) (p : Nat) (x : Vec3 α) : (store3 m p x).next = m.next := rfl

theorem next_store4 (m : Mem α) (p : Nat) (x : Vec4 α) : (store4 m p x).next = m.next := rfl

theorem next_new3 [Zero α] (m : Mem α) : (new3 m).1.next = m.next + 3 := rfl

theorem next_new4 [Zero α] (m : Mem α) : (new4 m).1.next = m.next + 4 := rfl

theorem ptr_new3 [Zero α] (m : Mem α) : (new3 m).2 = m.next := rfl

theorem ptr_new4 [Zero α] (m : Mem α) : (new4 m).2 = m.next := rfl

theorem load2_store2_same (m : Mem α) (p : Nat) (x : Vec2 α) :
    load2 (store2 m p x) p = x := by
  ext <;> simp [load2, store2]

theorem load3_store3_same (m : Mem α) (p : Nat) (x : Vec3 α) :
    load3 (store3 m p x) p = x := by
  ext <;> simp [load3, store3]

theorem load4_store4_same (m : Mem α) (p : Nat) (x : Vec4 α) :
    load4 (store4 m p x) p = x := by
  ext <;> simp [load4, store4]

theorem cell_store3_ne (m : Mem α) (p i : Nat) (x : Vec3 α) (h : i < p ∨ p + 3 ≤ i) :
    (store3 m p x).cell i = m.cell i := by
  have h0 : i ≠ p := by omega
  have h1 : i ≠ p + 1 := by omega
  have h2 : i ≠ p + 2 := by omega
  simp [store3, h0, h1, h2]

theorem cell_store4_ne (m : Mem α) (p i : Nat) (x : Vec4 α) (h : i < p ∨ p + 4 ≤ i) :
    (store4 m p x).cell i = m.cell i := by
  have h0 : i ≠ p := by omega
  have h1 : i ≠ p + 1 := by omega
  have h2 : i ≠ p + 2 := by omega
  have h3 : i ≠ p + 3 := by omega
  simp [store4, h0, h1, h2, h3]

theorem cell_new3 [Zero α] (m : Mem α) (i : Nat) (h : i < m.next) :
    (new3 m).1.cell i = m.cell i := by
  have h0 : ¬ (m.next ≤ i ∧ i < m.next + 3) := by omega
  simp [new3, h0]

theorem cell_new4 [Zero α] (m : Mem α) (i : Nat) (h : i < m.next) :
    (new4 m).1.cell i = m.cell i := by
  have h0 : ¬ (m.next ≤ i ∧ i < m.next + 4) := by omega
  simp [new4, h0]

theorem load3_store3_disj (m : Mem α) (p a : Nat) (x : Vec3 α) (h : a + 3 ≤ p ∨ p + 3 ≤ a) :
    load3 (store3 m p x) a = load3 m a := by
  ext <;> simp only [load3] <;> apply cell_store3_ne <;> omega

theorem load4_store4_disj (m : Mem α) (p a : Nat) (x : Vec4 α) (h : a + 4 ≤ p ∨ p + 4 ≤ a) :
    load4 (store4 m p x) a = load4 m a := by
  ext <;> simp only [load4] <;> apply cell_store4_ne <;> omega

theorem load3_new3 [Zero α] (m : Mem α) (a : Nat) (h : a + 3 ≤ m.next) :
    load3 (new3 m).1 a = load3 m a := by
  ext <;> simp only [load3] <;> apply cell_new3 <;> omega

theorem load4_new4 [Zero α] (m : Mem α) (a : Nat) (h : a + 4 ≤ m.next) :
    load4 (new4 m).1 a = load4 m a := by
  ext <;> simp only [load4] <;> apply cell_new4 <;> omega

end AccessLemmas

section Lemmas

variable {α : Type} [LinearOrderedField α]

/-! ### Memory level: each primitive stores the value-level result -/

theorem mem_CrossV3 (m : Mem α) (r a b : Nat) :
    (CrossV3 m r a b).1 = store3 m r (VMath.CrossV3 (load3 m a) (load3 m b)) := rfl

theorem ret_CrossV3 (m : Mem α) (r a b : Nat) : (CrossV3 m r a b).2 = r := rfl

theorem val_DotV2 (m : Mem α) (a b : Nat) :
    DotV2 m a b = VMath.DotV2 (load2 m a) (load2 m b) := rfl

theorem val_DotV3 (m : Mem α) (a b : Nat) :
    DotV3 m a b = VMath.DotV3 (load3 m a) (load3 m b) := rfl

theorem val_DotV4 (m : Mem α) (a b : Nat) :
    DotV4 m a b = VMath.DotV4 (load4 m a) (load4 m b) := rfl

theorem mem_ScaleV2 (m : Mem α) (r v : Nat) (s : α) :
    (ScaleV2 m r v s).1 = store2 m r (VMath.ScaleV2 (load2 m v) s) := rfl

theorem mem_ScaleV3 (m : Mem α) (r v : Nat) (s : α) :
    (ScaleV3 m r v s).1 = store3 m r (VMath.ScaleV3 (load3 m v) s) := rfl

theorem ret_ScaleV3 (m : Mem α) (r v : Nat) (s : α) : (ScaleV3 m r v s).2 = r := rfl

theorem mem_ScaleV4 (m : Mem α) (r v : Nat) (s : α) :
    (ScaleV4 m r v s).1 = store4 m r (VMath.ScaleV4 (load4 m v) s) := rfl

theorem ret_ScaleV4 (m : Mem α) (r v : Nat) (s : α) : (ScaleV4 m r v s).2 = r := rfl

theorem mem_NormalizeV2 (sqrt : α → α) (m : Mem α) (r v : Nat) :
    (NormalizeV2 sqrt m r v).1 = store2 m r (VMath.NormalizeV2 sqrt (load2 m v)) := rfl

theorem mem_NormalizeV3 (sqrt : α → α) (m : Mem α) (r v : Nat) :
    (NormalizeV3 sqrt m r v).1 = store3 m r (VMath.NormalizeV3 sqrt (load3 m v)) := rfl

theorem mem_NormalizeV4 (sqrt : α → α) (m : Mem α) (r v : Nat) :
    (NormalizeV4 sqrt m r v).1 = store4 m r (VMath.NormalizeV4 sqrt (load4 m v)) := rfl

theorem mem_AddV2 (m : Mem α) (r a b : Nat) :
    (AddV2 m r a b).1 = store2 m r (VMath.AddV2 (load2 m a) (load2 m b)) := rfl

theorem mem_AddV3 (m : Mem α) (r a b : Nat) :
    (AddV3 m r a b).1 = store3 m r (VMath.AddV3 (load3 m a) (load3 m b)) := rfl

theorem mem_AddV4 (m : Mem α) (r a b : Nat) :
    (AddV4 m r a b).1 = store4 m r (VMath.AddV4 (load4 m a) (load4 m b)) := rfl

theorem ret_AddV4 (m : Mem α) (r a b : Nat) : (AddV4 m r a b).2 = r := rfl

theorem mem_SubtractV3 (m : Mem α) (r a b : Nat) :
    (SubtractV3 m r a b).1 = store3 m r (VMath.SubtractV3 (load3 m a) (load3 m b)) := rfl

theorem mem_MulQt (m : Mem α) (r a b : Nat) :
    (MulQt m r a b).1 = store4 m r (VMath.MulQt (load4 m a) (load4 m b)) := rfl

theorem mem_ConjugateQt (m : Mem α) (r q : Nat) :
    (ConjugateQt m r q).1 = store4 m r (VMath.ConjugateQt (load4 m q)) := rfl

/-! ### Memory level: the functions with temporaries -/

theorem load3_LerpV3 (m : Mem α) (r a b : Nat) (t : α)
    (ha : a + 3 ≤ m.next) (hb : b + 3 ≤ m.next) :
    load3 (LerpV3 m r a b t).1 r = VMath.LerpV3 (load3 m a) (load3 m b) t := by
  simp (disch := first | omega | (simp only [next_new3, next_store3]; omega)) only [LerpV3,
    VMath.LerpV3, mem_AddV3, mem_ScaleV3, ptr_new3, next_new3, next_store3, load3_store3_same,
    load3_store3_disj, load3_new3]

theorem load3_RotateQt (m : Mem α) (r v q : Nat)
    (hr : r + 3 ≤ m.next) (hv : v + 3 ≤ m.next) (hq : q + 4 ≤ m.next) :
    load3 (RotateQt m r v q).1 r = VMath.RotateQt (load3 m v) (load4 m q) := by
  simp (disch := first | omega | (simp only [next_new3, next_store3]; omega)) only [RotateQt,
    mem_AddV3, mem_ScaleV3, mem_CrossV3, ret_ScaleV3, ret_CrossV3, val_DotV3, ptr_new3,
    next_new3, next_store3, load3_store3_same, load3_store3_disj, load3_new3,
    cell_store3_ne, cell_new3]
  rfl

theorem load4_NlerpQt (sqrt : α → α) (m : Mem α) (r a b : Nat) (t : α)
    (ha : a + 4 ≤ m.next) (hb : b + 4 ≤ m.next) :
    load4 (NlerpQt sqrt m r a b t).1 r = VMath.NlerpQt sqrt (load4 m a) (load4 m b) t := by
  by_cases h : VMath.DotV4 (load4 m a) (load4 m b) < 0
  · simp (disch := first | omega | (simp only [next_new4, next_store4]; omega)) only [NlerpQt,
      VMath.NlerpQt, mem_AddV4, mem_ScaleV4, mem_NormalizeV4, ret_ScaleV4, ret_AddV4,
      val_DotV4, ptr_new4, next_new4, next_store4, load4_store4_same, load4_store4_disj,
      load4_new4, if_pos h]
  · simp (disch := first | omega | (simp only [next_new4, next_store4]; omega)) only [NlerpQt,
      VMath.NlerpQt, mem_AddV4, mem_ScaleV4, mem_NormalizeV4, ret_ScaleV4, ret_AddV4,
      val_DotV4, ptr_new4, next_new4, next_store4, load4_store4_same, load4_store4_disj,
      load4_new4, if_neg h]

end Lemmas

/-- C4: the aliasing contract.  In every memory `m` and for all operand addresses,
equal, overlapping or distinct, the value left at the destination `r` is the
value-level result on the sources as they were before the call.  The right-hand sides
do not mention `r`, so the value is the one written to a fresh, distinct destination.
This covers `ScaleV2/3/4`, `AddV2/3/4`, `SubtractV3`, `CrossV3`, `NormalizeV2/3/4`,
`LerpV3`, `MulQt`, `ConjugateQt`, `NlerpQt` and `RotateQt` (for it `r = v` in
particular).  The functions with temporaries take operands that are already allocated,
that is, below `m.next`. -/
theorem aliasing_contract {α : Type} [LinearOrderedField α] (sqrt : α → α) (m : Mem α) :
    (∀ (r v : Nat) (s : α), load2 (ScaleV2 m r v s).1 r = VMath.ScaleV2 (load2 m v) s) ∧
    (∀ (r v : Nat) (s : α), load3 (ScaleV3 m r v s).1 r = VMath.ScaleV3 (load3 m v) s) ∧
    (∀ (r v : Nat) (s : α), load4 (ScaleV4 m r v s).1 r = VMath.ScaleV4 (load4 m v) s) ∧
    (∀ r a b : Nat, load2 (AddV2 m r a b).1 r = VMath.AddV2 (load2 m a) (load2 m b)) ∧
    (∀ r a b : Nat, load3 (AddV3 m r a b).1 r = VMath.AddV3 (load3 m a) (load3 m b)) ∧
    (∀ r a b : Nat, load4 (AddV4 m r a b).1 r = VMath.AddV4 (load4 m a) (load4 m b)) ∧
    (∀ r a b : Nat,
      load3 (SubtractV3 m r a b).1 r = VMath.SubtractV3 (load3 m a) (load3 m b)) ∧
    (∀ r a b : Nat, load3 (CrossV3 m r a b).1 r = VMath.CrossV3 (load3 m a) (load3 m b)) ∧
    (∀ r v : Nat, load2 (NormalizeV2 sqrt m r v).1 r = VMath.NormalizeV2 sqrt (load2 m v)) ∧
    (∀ r v : Nat, load3 (NormalizeV3 sqrt m r v).1 r = VMath.NormalizeV3 sqrt (load3 m v)) ∧
    (∀ r v : Nat, load4 (NormalizeV4 sqrt m r v).1 r = VMath.NormalizeV4 sqrt (load4 m v)) ∧
    (∀ (r a b : Nat) (t : α), a + 3 ≤ m.next → b + 3 ≤ m.next →
      load3 (LerpV3 m r a b t).1 r = VMath.LerpV3 (load3 m a) (load3 m b) t) ∧
    (∀ r a b : Nat, load4 (MulQt m r a b).1 r = VMath.MulQt (load4 m a) (load4 m b)) ∧
    (∀ r q : Nat, load4 (ConjugateQt m r q).1 r = VMath.ConjugateQt (load4 m q)) ∧
    (∀ (r a b : Nat) (t : α), a + 4 ≤ m.next → b + 4 ≤ m.next →
      load4 (NlerpQt sqrt m r a b t).1 r = VMath.NlerpQt sqrt (load4 m a) (load4 m b) t) ∧
    (∀ r v q : Nat, r + 3 ≤ m.next → v + 3 ≤ m.next → q + 4 ≤ m.next →
      load3 (RotateQt m r v q).1 r = VMath.RotateQt (load3 m v) (load4 m q)) := by
  refine ⟨?_, ?_, ?_, ?_, ?_, ?_, ?_, ?_, ?_, ?_, ?_, ?_, ?_, ?_, ?_, ?_⟩
  · intro r v s
    rw [mem_ScaleV2, load2_store2_same]
  · intro r v s
    rw [mem_ScaleV3, load3_store3_same]
  · intro r v s
    rw [mem_ScaleV4, load4_store4_same]
  · intro r a b
    rw [mem_AddV2, load2_store2_same]
  · intro r a b
    rw [mem_AddV3, load3_store3_same]
  · intro r a b
    rw [mem_AddV4, load4_store4_same]
  · intro r a b
    rw [mem_SubtractV3, load3_store3_same]
  · intro r a b
    rw [mem_CrossV3, load3_store3_same]
  · intro r v
    rw [mem_NormalizeV2, load2_store2_same]
  · intro r v
    rw [mem_NormalizeV3, load3_store3_same]
  · intro r v
    rw [mem_NormalizeV4, load4_store4_same]
  · intro r a b t ha hb
    exact load3_LerpV3 m r a b t ha hb
  · intro r a b
    rw [mem_MulQt, load4_store4_same]
  · intro r q
    rw [mem_ConjugateQt, load4_store4_same]
  · intro r a b t ha hb
    exact load4_NlerpQt sqrt m r a b t ha hb
  · intro r v q hr hv hq
    exact load3_RotateQt m r v q hr hv hq

/-- Witness for C4 in `sampleMem`: `LerpV3(a, a, b, t)` with `a = 0`, `b = 3`,
`NlerpQt(a, a, a, t)` with `a = 4`, and `RotateQt(v, v, q)` with `v = 0`, `q = 3`. -/
theorem aliasing_contract_witness :
    (0 + 3 ≤ sampleMem.next ∧ 3 + 3 ≤ sampleMem.next ∧ 4 + 4 ≤ sampleMem.next ∧
      3 + 4 ≤ sampleMem.next) ∧
    load3 (LerpV3 sampleMem 0 0 3 (1 / 2)).1 0
      = VMath.LerpV3 (load3 sampleMem 0) (load3 sampleMem 3) (1 / 2) ∧
    load4 (NlerpQt id sampleMem 4 4 4 2).1 4
      = VMath.NlerpQt id (load4 sampleMem 4) (load4 sampleMem 4) 2 ∧
    load3 (RotateQt sampleMem 0 0 3).1 0
      = VMath.RotateQt (load3 sampleMem 0) (load4 sampleMem 3) :=
  have h := aliasing_contract id sampleMem
  ⟨by decide,
    h.2.2.2.2.2.2.2.2.2.2.2.1 0 0 3 (1 / 2) (by decide) (by decide),
    h.2.2.2.2.2.2.2.2.2.2.2.2.2.2.1 4 4 4 2 (by decide) (by decide),
    h.2.2.2.2.2.2.2.2.2.2.2.2.2.2.2 0 0 3 (by decide) (by decide) (by decide)⟩

/-- The `float32` model on ordinary inputs: `2^24 + 1` rounds to the even neighbour
`2^24`, `2^128 - 2^104` is the largest finite value and `2^128 - 2^103` already rounds to
`+Inf`; the test vectors give `CrossV3 (1,2,3) (4,5,6) = (-3, 6, -3)` and
`CrossV3 (1,2,3) (1,2,3) = (0, 0, 0)`. -/
theorem F32_examples :
    F32.ofNat (2 ^ 24 + 1) = F32.ofNat (2 ^ 24) ∧
    F32.ofNat (2 ^ 128 - 2 ^ 104) = F32.fin ((2 ^ 128 - 2 ^ 104) * 2 ^ 149) ∧
    F32.ofNat (2 ^ 128 - 2 ^ 103) = F32.inf false ∧
    VMath.CrossV3 (Vec3.mk (F32.ofNat 1) (F32.ofNat 2) (F32.ofNat 3))
        (Vec3.mk (F32.ofNat 4) (F32.ofNat 5) (F32.ofNat 6))
      = Vec3.mk (F32.fin (-3 * 2 ^ 149)) (F32.fin (6 * 2 ^ 149)) (F32.fin (-3 * 2 ^ 149)) ∧
    VMath.CrossV3 (Vec3.mk (F32.ofNat 1) (F32.ofNat 2) (F32.ofNat 3))
        (Vec3.mk (F32.ofNat 1) (F32.ofNat 2) (F32.ofNat 3))
      = Vec3.mk (F32.fin 0) (F32.fin 0) (F32.fin 0) := by
  decide!

/-- C15, as stated, fails on `float32`: with `a = (2^64, 2^64, 2^64)`, finite and exactly
representable, every product `a[i] * a[j]` overflows to `+Inf` and `Inf - Inf` is NaN,
so `CrossV3(r, a, a)` leaves `(NaN, NaN, NaN)` in `r`, for `r` distinct from `a`
(address 3) and for `r = a` (address 0), not the zero vector. -/
theorem CrossV3_self_overflow :
    hugeV3 = Vec3.mk (F32.fin (2 ^ 64 * 2 ^ 149)) (F32.fin (2 ^ 64 * 2 ^ 149))
      (F32.fin (2 ^ 64 * 2 ^ 149)) ∧
    load3 hugeMem 0 = hugeV3 ∧
    hugeV3.c1 * hugeV3.c2 = F32.inf false ∧
    VMath.CrossV3 hugeV3 hugeV3 = Vec3.mk F32.nan F32.nan F32.nan ∧
    load3 (CrossV3 hugeMem 3 0 0).1 3 = Vec3.mk F32.nan F32.nan F32.nan ∧
    load3 (CrossV3 hugeMem 0 0 0).1 0 = Vec3.mk F32.nan F32.nan F32.nan ∧
    load3 (CrossV3 hugeMem 3 0 0).1 3 ≠ Vec3.mk (F32.fin 0) (F32.fin 0) (F32.fin 0) ∧
    load3 (CrossV3 hugeMem 0 0 0).1 0 ≠ Vec3.mk (F32.fin 0) (F32.fin 0) (F32.fin 0) := by
  decide!

/-- C15, amended: with components read as exact reals (any ordered field, so no
overflow), for every 3-vector at any address `a`, `CrossV3(r, a, a)` leaves the zero
vector in `r`, for every destination `r` (so for one distinct from `a`) and for the
fully aliased call `CrossV3(a, a, a)`; at value level `CrossV3 a a` is zero. -/
theorem CrossV3_self_zero {α : Type} [LinearOrderedField α] (m : Mem α) :
    (∀ r a : Nat, load3 (CrossV3 m r a a).1 r = zeroV3) ∧
    (∀ a : Nat, load3 (CrossV3 m a a a).1 a = zeroV3) ∧
    (∀ a : Vec3 α, VMath.CrossV3 a a = zeroV3) := by
  have hv : ∀ a : Vec3 α, VMath.CrossV3 a a = zeroV3 := by
    intro a
    ext <;> simp only [VMath.CrossV3, zeroV3] <;> ring
  refine ⟨fun r a => ?_, fun a => ?_, hv⟩
  · rw [mem_CrossV3, load3_store3_same, hv]
  · rw [mem_CrossV3, load3_store3_same, hv]

/-- C16: for each dimension `N` in 2, 3, 4 and every address `a`, the fully aliased
`AddVN(a, a, a)` leaves in `a` the same value as `ScaleVN(a, a, 2)`, every component
doubled.  From the tests: on `a = (1, 2)` the result is `(2, 4)` and on `a = (1, 2, 3)`
it is `(2, 4, 6)`. -/
theorem AddV_self_eq_ScaleV_two {α : Type} [LinearOrderedField α] (m : Mem α) :
    (∀ a : Nat, load2 (AddV2 m a a a).1 a = load2 (ScaleV2 m a a 2).1 a ∧
      load2 (AddV2 m a a a).1 a = Vec2.mk (2 * m.cell a) (2 * m.cell (a + 1))) ∧
    (∀ a : Nat, load3 (AddV3 m a a a).1 a = load3 (ScaleV3 m a a 2).1 a ∧
      load3 (AddV3 m a a a).1 a
        = Vec3.mk (2 * m.cell a) (2 * m.cell (a + 1)) (2 * m.cell (a + 2))) ∧
    (∀ a : Nat, load4 (AddV4 m a a a).1 a = load4 (ScaleV4 m a a 2).1 a ∧
      load4 (AddV4 m a a a).1 a
        = Vec4.mk (2 * m.cell a) (2 * m.cell (a + 1)) (2 * m.cell (a + 2))
            (2 * m.cell (a + 3))) ∧
    (∀ a : Nat, load2 (AddV2 (store2 m a (Vec2.mk 1 2)) a a a).1 a = Vec2.mk 2 4) ∧
    (∀ a : Nat, load3 (AddV3 (store3 m a (Vec3.mk 1 2 3)) a a a).1 a = Vec3.mk 2 4 6) := by
  refine ⟨fun a => ⟨?_, ?_⟩, fun a => ⟨?_, ?_⟩, fun a => ⟨?_, ?_⟩, fun a => ?_, fun a => ?_⟩
  · rw [mem_AddV2, mem_ScaleV2, load2_store2_same, load2_store2_same]
    ext <;> simp only [VMath.AddV2, VMath.ScaleV2] <;> ring
  · rw [mem_AddV2, load2_store2_same]
    ext <;> simp only [VMath.AddV2, load2] <;> ring
  · rw [mem_AddV3, mem_ScaleV3, load3_store3_same, load3_store3_same]
    ext <;> simp only [VMath.AddV3, VMath.ScaleV3] <;> ring
  · rw [mem_AddV3, load3_store3_same]
    ext <;> simp only [VMath.AddV3, load3] <;> ring
  · rw [mem_AddV4, mem_ScaleV4, load4_store4_same, load4_store4_same]
    ext <;> simp only [VMath.AddV4, VMath.ScaleV4] <;> ring
  · rw [mem_AddV4, load4_store4_same]
    ext <;> simp only [VMath.AddV4, load4] <;> ring
  · rw [mem_AddV2, load2_store2_same, load2_store2_same]
    ext <;> norm_num [VMath.AddV2]
  · rw [mem_AddV3, load3_store3_same, load3_store3_same]
    ext <;> norm_num [VMath.AddV3]

end Heap

end VMath
